import Mathlib

/-!
Verification development for the NewsBrief application (src/App.tsx,
src/components/Visualizer.tsx with the bundled gemini service, src/unnamed/part_000).

The embedding models the playback position tracker, the speculative briefing
cache, the history list and the standard generation pipeline.  Wall-clock
times, offsets and playback rates are rationals (the source uses JS numbers;
the spec asks for equalities only up to floating rounding, which exact
rational arithmetic subsumes).  The three remote generative calls are
modelled as an oracle environment; ghost counters record how many remote
script/speech/image requests each operation issues.
-/

namespace NewsBrief

/-- ArticleType mirrors the type field of Article in src/unnamed/part_000. -/
inductive ArticleType
  | text | url | search
deriving DecidableEq

/-- Article from src/unnamed/part_000. -/
structure Article where
  id : String
  type : ArticleType
  content : String
deriving DecidableEq

/-- GroundingSource from src/unnamed/part_000. -/
structure GroundingSource where
  title : String
  uri : String
deriving DecidableEq

/-- AppState enum from src/unnamed/part_000. -/
inductive AppState
  | IDLE | SUMMARIZING | SYNTHESIZING | READY | PLAYING | ERROR
deriving DecidableEq

/-- Language union type from src/unnamed/part_000. -/
inductive Language
  | English | Spanish | French | German | Japanese
deriving DecidableEq

/-- VoiceGender union type from src/unnamed/part_000. -/
inductive VoiceGender
  | Male | Female
deriving DecidableEq

/-- VoiceName enum from src/unnamed/part_000. -/
inductive VoiceName
  | Kore | Puck | Fenrir | Charon | Zephyr
deriving DecidableEq

/-- A decoded audio buffer, abstracted to the one attribute the tracked
logic consumes: its duration in seconds. -/
structure AudioBuffer where
  duration : ℚ
deriving DecidableEq

/-- Result of the script-synthesis service call (BriefingResult in the
gemini service file). -/
structure BriefingResult where
  script : String
  sources : List GroundingSource
deriving DecidableEq

/-- Status of a cache entry (CachedBriefing.status in src/unnamed/part_000). -/
inductive CacheStatus
  | pending | ready | error
deriving DecidableEq

/-- CachedBriefing from src/unnamed/part_000. -/
structure CachedBriefing where
  id : String
  summary : String
  sources : List GroundingSource
  audioBuffer : Option AudioBuffer
  imageUrl : Option String
  status : CacheStatus
  timestamp : ℤ
deriving DecidableEq

/-- HistoryItem: the fields follow the HistoryItem record as constructed and
consumed in src/App.tsx (addToHistory, loadHistoryItem, history rendering)
and listed in the spec data model. -/
structure HistoryItem where
  id : String
  timestamp : ℤ
  topic : String
  summary : String
  sources : List GroundingSource
  imageUrl : Option String
  audioBuffer : AudioBuffer
deriving DecidableEq

/-- The remote generative service, modelled as an oracle: outcomes of the
script, speech and image calls.  Script and speech may fail with a message
(the code catches thrown errors); the image call resolves to an optional
data URI (generateCoverImage swallows its own failures and returns null). -/
structure RemoteEnv where
  script : List Article → Language → Except String BriefingResult
  speech : String → VoiceName → Except String AudioBuffer
  image : String → Option String

/-- The application state: React state hooks plus the audio refs of
src/App.tsx that the verified logic touches.  hasContext, sourceNode,
onended and outputActive model respectively whether audioContextRef,
sourceNodeRef are non-null, whether an onended callback is attached, and
whether the live source node is emitting audio; liveStartOffset records the
offset passed to source.start.  scriptCalls, speechCalls and imageCalls are
ghost instrumentation counting issued remote requests. -/
structure App where
  appState : AppState
  summary : String
  sources : List GroundingSource
  imageUrl : Option String
  errorMessage : Option String
  selectedLanguage : Language
  selectedGender : VoiceGender
  playbackRate : ℚ
  cache : List (String × CachedBriefing)
  history : List HistoryItem
  articles : List Article
  audioBuffer : Option AudioBuffer
  savedOffset : ℚ
  segmentStart : ℚ
  hasContext : Bool
  sourceNode : Bool
  onended : Bool
  outputActive : Bool
  liveStartOffset : ℚ
  scriptCalls : ℕ
  speechCalls : ℕ
  imageCalls : ℕ

/-- getVoiceForGender from src/App.tsx: Female maps to Kore, Male to Puck. -/
def getVoiceForGender : VoiceGender → VoiceName
  | VoiceGender.Female => VoiceName.Kore
  | VoiceGender.Male => VoiceName.Puck

/-- addToHistory from src/App.tsx: a no-op when an item with the same id is
already present, otherwise the item is prepended. -/
def addToHistory (item : HistoryItem) (prev : List HistoryItem) : List HistoryItem :=
  if prev.any (fun i => i.id = item.id) then prev else item :: prev

/-- Association-list lookup for the cache record object of src/App.tsx
(cache[categoryLabel]). -/
def cacheLookup (label : String) : List (String × CachedBriefing) → Option CachedBriefing
  | [] => none
  | p :: rest => if p.1 = label then some p.2 else cacheLookup label rest

/-- In-place update of one cache entry, modelling the object-spread update
on an existing key in src/App.tsx startPreFetching. -/
def cacheUpdate (label : String) (f : CachedBriefing → CachedBriefing) :
    List (String × CachedBriefing) → List (String × CachedBriefing)
  | [] => []
  | p :: rest =>
    if p.1 = label then (p.1, f p.2) :: cacheUpdate label f rest
    else p :: cacheUpdate label f rest

/-- Step 4 of startPreFetching in src/App.tsx: when the image promise
resolves, attach the image to the existing cache entry, touching only its
imageUrl field. -/
def attachImage (label : String) (img : Option String)
    (cache : List (String × CachedBriefing)) : List (String × CachedBriefing) :=
  cacheUpdate label (fun cd => { cd with imageUrl := img }) cache

/-- commitProgress from src/App.tsx: when the audio context exists, advance
the saved buffer offset by the wall-clock elapsed time of the segment scaled
by the rate, and restart the segment clock. -/
def commitProgress (rate now : ℚ) (a : App) : App :=
  if a.hasContext then
    { a with
      savedOffset := a.savedOffset + (now - a.segmentStart) * rate,
      segmentStart := now }
  else a

/-- playAudio from src/App.tsx: requires a buffer and a context; starts a
source at max 0 savedOffset; if that offset is out of range for the buffer
the start call throws and the catch branch resets savedOffset to 0 and
starts from 0; then records the segment start, keeps the source node,
enters PLAYING and attaches the onended handler. -/
def playAudio (now : ℚ) (a : App) : App :=
  match a.audioBuffer with
  | none => a
  | some buf =>
    if a.hasContext then
      let startOffset := max 0 a.savedOffset
      let a1 :=
        if buf.duration < startOffset then
          { a with savedOffset := 0, liveStartOffset := 0 }
        else
          { a with liveStartOffset := startOffset }
      { a1 with
        segmentStart := now,
        sourceNode := true,
        outputActive := true,
        onended := true,
        appState := AppState.PLAYING }
    else a

/-- pauseAudio from src/App.tsx: when a source node and a context exist,
first commit progress under the current playback rate, then detach the
onended handler, stop and disconnect the source, and enter READY. -/
def pauseAudio (now : ℚ) (a : App) : App :=
  if a.sourceNode = true ∧ a.hasContext = true then
    let a1 := commitProgress a.playbackRate now a
    { a1 with onended := false, outputActive := false, appState := AppState.READY }
  else a

/-- handleRateChange from src/App.tsx: when playing with a live source,
commit progress under the old rate and retune the live source; in every
case store the new rate. -/
def handleRateChange (newRate now : ℚ) (a : App) : App :=
  let a1 :=
    if a.appState = AppState.PLAYING ∧ a.sourceNode = true then
      commitProgress a.playbackRate now a
    else a
  { a1 with playbackRate := newRate }

/-- The onended handler attached in playAudio (src/App.tsx): on natural end
of the buffer, enter READY and reset the saved offset to 0.  It only runs
while attached; pauseAudio detaches it before stopping the source. -/
def handleEnded (a : App) : App :=
  if a.onended then
    { a with appState := AppState.READY, savedOffset := 0, outputActive := false }
  else a

/-- generateBriefingScript from the gemini service file: an empty topic list
short-circuits to an empty script and empty sources without touching the
remote service; otherwise it issues exactly one remote script call.  The
second component counts remote calls issued. -/
def generateBriefingScript (remote : List Article → Language → Except String BriefingResult)
    (articles : List Article) (language : Language) :
    Except String BriefingResult × ℕ :=
  if articles.length = 0 then (Except.ok { script := "", sources := [] }, 0)
  else (remote articles language, 1)

/-- The JS String.prototype.trim operation used by the topic filter of
performGeneration: strip leading and trailing whitespace. -/
def jsTrim (s : String) : String :=
  String.mk (((s.data.dropWhile Char.isWhitespace).reverse.dropWhile
    Char.isWhitespace).reverse)

/-- The default error text of the catch branch of performGeneration in
src/App.tsx. -/
def defaultErrorMessage : String := "Something went wrong while generating the briefing."

/-- Models the JS expression (err.message or default): an empty message is
falsy and replaced by the default. -/
def jsOr (s fallback : String) : String := if s = "" then fallback else s

/-- performGeneration from src/App.tsx, sequentialized: validate topics, set
the SUMMARIZING state, run the script call; on success store its result,
enter SYNTHESIZING, issue the speech and image calls; await speech only: on
success store the buffer, reset the offset, enter READY, and then the image
continuation stores the image and appends a history record.  Any script or
speech failure jumps to the catch branch (ERROR plus message); the attached
image continuation never runs in that case because it is only installed
after the speech call succeeds. -/
def performGeneration (env : RemoteEnv) (now : ℤ) (targetArticles : List Article)
    (a : App) : App :=
  let a0 := { a with hasContext := true }
  let validArticles := targetArticles.filter (fun x => 0 < (jsTrim x.content).length)
  if validArticles.length = 0 then
    { a0 with errorMessage := some "Please enter at least one search topic." }
  else
    let a1 := { a0 with
      errorMessage := none, appState := AppState.SUMMARIZING,
      summary := "", sources := [], imageUrl := none }
    let scriptOut := generateBriefingScript env.script validArticles a.selectedLanguage
    let a2 := { a1 with scriptCalls := a1.scriptCalls + scriptOut.2 }
    match scriptOut.1 with
    | Except.error e =>
      { a2 with errorMessage := some (jsOr e defaultErrorMessage), appState := AppState.ERROR }
    | Except.ok result =>
      let a3 := { a2 with
        summary := result.script, sources := result.sources,
        appState := AppState.SYNTHESIZING,
        speechCalls := a2.speechCalls + 1, imageCalls := a2.imageCalls + 1 }
      match env.speech result.script (getVoiceForGender a.selectedGender) with
      | Except.error e =>
        { a3 with errorMessage := some (jsOr e defaultErrorMessage), appState := AppState.ERROR }
      | Except.ok buffer =>
        let a4 := { a3 with
          audioBuffer := some buffer, savedOffset := 0, appState := AppState.READY }
        let generatedImage := env.image result.script
        let topic := String.intercalate ", " (validArticles.map (fun x => x.content))
        let topicDisplay := if 50 < topic.length then topic.take 50 ++ "..." else topic
        let a5 := { a4 with imageUrl := generatedImage }
        let record : HistoryItem :=
          { id := toString now, timestamp := now, topic := topicDisplay,
            summary := result.script, sources := result.sources,
            imageUrl := generatedImage, audioBuffer := buffer }
        { a5 with history := addToHistory record a5.history }

/-- The quick-category topic string built in handleCategorySelect. -/
def categoryTopic (label : String) : String :=
  "Top 5 recent " ++ label ++ " headlines"

/-- The fallback tail of handleCategorySelect in src/App.tsx: replace the
topic list with the category topic and run the standard generation. -/
def categoryFallback (env : RemoteEnv) (now : ℤ) (label : String) (a : App) : App :=
  let newArticle : Article :=
    { id := toString now, type := ArticleType.search, content := categoryTopic label }
  performGeneration env now [newArticle] { a with articles := [newArticle] }

/-- The history record built on the cache-hit path of handleCategorySelect:
its id combines the category label with the cache timestamp, so a repeated
click on the same cached briefing deduplicates in addToHistory. -/
def cacheHitRecord (label : String) (now : ℤ) (cd : CachedBriefing)
    (buf : AudioBuffer) : HistoryItem :=
  { id := label ++ "-" ++ toString cd.timestamp, timestamp := now,
    topic := categoryTopic label, summary := cd.summary,
    sources := cd.sources, imageUrl := cd.imageUrl, audioBuffer := buf }

/-- handleCategorySelect from src/App.tsx: on a ready cache entry with an
audio buffer, adopt its summary, sources, image and audio, reset the saved
offset, rewrite the topic list, append a history record and enter READY
without any remote call; on a pending entry, show SUMMARIZING and fall
through; otherwise fall through to the standard generation. -/
def handleCategorySelect (env : RemoteEnv) (now : ℤ) (label : String) (a : App) : App :=
  match cacheLookup label a.cache with
  | some cd =>
    match cd.status, cd.audioBuffer with
    | CacheStatus.ready, some buf =>
      { a with
        hasContext := true,
        summary := cd.summary,
        sources := cd.sources,
        imageUrl := cd.imageUrl,
        audioBuffer := some buf,
        savedOffset := 0,
        articles := [{ id := "cached", type := ArticleType.search,
                       content := categoryTopic label }],
        history := addToHistory (cacheHitRecord label now cd buf) a.history,
        appState := AppState.READY }
    | CacheStatus.pending, _ =>
      categoryFallback env now label { a with appState := AppState.SUMMARIZING }
    | _, _ => categoryFallback env now label a
  | none => categoryFallback env now label a

/-- An application state holding a freshly loaded buffer of duration D:
saved offset 0, rate 1, READY, audio context initialized, segment clock at
t0.  This is the state every load path (performGeneration success,
handleCategorySelect hit, loadHistoryItem) establishes for the tracker. -/
def loadedApp (D t0 : ℚ) : App :=
  { appState := AppState.READY
    summary := ""
    sources := []
    imageUrl := none
    errorMessage := none
    selectedLanguage := Language.English
    selectedGender := VoiceGender.Female
    playbackRate := 1
    cache := []
    history := []
    articles := []
    audioBuffer := some { duration := D }
    savedOffset := 0
    segmentStart := t0
    hasContext := true
    sourceNode := false
    onended := false
    outputActive := false
    liveStartOffset := 0
    scriptCalls := 0
    speechCalls := 0
    imageCalls := 0 }

/-- User-visible transport events on a loaded buffer, each stamped with the
audio-context wall-clock time at which it occurs. -/
inductive Event
  | play (now : ℚ)
  | pause (now : ℚ)
  | changeRate (newRate : ℚ) (now : ℚ)
  | ended (now : ℚ)

/-- Wall-clock time of an event. -/
def Event.time : Event → ℚ
  | Event.play t => t
  | Event.pause t => t
  | Event.changeRate _ t => t
  | Event.ended t => t

/-- Transition function: dispatch an event to the corresponding handler of
src/App.tsx. -/
def step (a : App) : Event → App
  | Event.play now => playAudio now a
  | Event.pause now => pauseAudio now a
  | Event.changeRate r now => handleRateChange r now a
  | Event.ended _ => handleEnded a

/-- Run a list of events from a state. -/
def run (a : App) : List Event → App
  | [] => a
  | e :: es => run (step a e) es

/-- Admissibility of one event in the single-threaded UI model, for a
buffer of duration D, given the time t of the previous event: the wall
clock is monotone; play is only offered in READY, pause only in PLAYING
(the transport button toggles on appState); rate changes come from the
slider, whose range is 0.5 to 2.0 (src/App.tsx input min/max); and an
event hitting a live source happens no later than the buffer's natural
end, since at that instant the ended event fires and leaves PLAYING. -/
def validEvent (D t : ℚ) (a : App) : Event → Prop
  | Event.play now => a.appState = AppState.READY ∧ t ≤ now
  | Event.pause now => a.appState = AppState.PLAYING ∧ t ≤ now ∧
      a.savedOffset + (now - a.segmentStart) * a.playbackRate ≤ D
  | Event.changeRate r now => 1/2 ≤ r ∧ r ≤ 2 ∧ t ≤ now ∧
      (a.appState = AppState.PLAYING →
        a.savedOffset + (now - a.segmentStart) * a.playbackRate ≤ D)
  | Event.ended now => a.appState = AppState.PLAYING ∧ t ≤ now ∧
      a.savedOffset + (now - a.segmentStart) * a.playbackRate = D

/-- Admissibility of a whole event sequence. -/
def validTrace (D t : ℚ) (a : App) : List Event → Prop
  | [] => True
  | e :: es => validEvent D t a e ∧ validTrace D e.time (step a e) es

/-- Inductive invariant of the tracker over admissible traces: the saved
offset stays within the buffer, the rate stays in the slider range, the
buffer and context persist, and while playing the segment clock was reset
at the last event and a live source with an attached end handler exists. -/
structure Inv (D t : ℚ) (a : App) : Prop where
  off_nonneg : 0 ≤ a.savedOffset
  off_le : a.savedOffset ≤ D
  rate_lb : 1/2 ≤ a.playbackRate
  rate_ub : a.playbackRate ≤ 2
  ctx : a.hasContext = true
  buf : a.audioBuffer = some { duration := D }
  seg : a.appState = AppState.PLAYING → a.segmentStart = t
  node : a.appState = AppState.PLAYING → a.sourceNode = true
  handler : a.appState = AppState.PLAYING → a.onended = true

/-- The scenario trace of the spec: play at time 0 at rate 1, pause at 3,
set the rate to 2 while paused, resume at 3, pause at 5. -/
def scenarioTrace : List Event :=
  [Event.play 0, Event.pause 3, Event.changeRate 2 3, Event.play 3, Event.pause 5]

/-- A sample cache entry in the ready state with audio present and the
image still unresolved. -/
def demoEntry : CachedBriefing :=
  { id := "Tech", summary := "tech summary",
    sources := [{ title := "t", uri := "u" }],
    audioBuffer := some { duration := 10 }, imageUrl := none,
    status := CacheStatus.ready, timestamp := 5 }

/-- A sample history item. -/
def itemA : HistoryItem :=
  { id := "a", timestamp := 0, topic := "ta", summary := "sa",
    sources := [], imageUrl := none, audioBuffer := { duration := 10 } }

/-- A second sample history item with a fresh id. -/
def itemB : HistoryItem := { itemA with id := "b" }

/-- A sample remote environment whose speech call fails. -/
def demoEnvSpeechFail : RemoteEnv :=
  { script := fun _ _ => Except.ok { script := "demo script", sources := [] },
    speech := fun _ _ => Except.error "boom",
    image := fun _ => none }

/-- A sample remote environment where every call succeeds. -/
def demoEnvOk : RemoteEnv :=
  { script := fun _ _ => Except.ok { script := "demo script", sources := [] },
    speech := fun _ _ => Except.ok { duration := 10 },
    image := fun _ => some "img" }

/-- A sample loaded state whose cache holds demoEntry under the Tech label. -/
def demoAppCached : App := { loadedApp 10 0 with cache := [("Tech", demoEntry)] }

/-- A sample topic list with one non-blank topic. -/
def demoArticles : List Article :=
  [{ id := "1", type := ArticleType.search, content := "news" }]

/-- C10: calling generateBriefingScript with an empty topic list yields an
empty script and an empty sources list and issues zero remote calls. -/
theorem generateBriefingScript_empty
    (remote : List Article → Language → Except String BriefingResult)
    (language : Language) :
    generateBriefingScript remote [] language =
      (Except.ok { script := "", sources := [] }, 0) := rfl

/-- C9: inserting a history item whose id is already present leaves the
list unchanged; inserting an item with a fresh id prepends it. -/
theorem addToHistory_dedup_or_prepend (prev : List HistoryItem) (item : HistoryItem) :
    ((∃ i ∈ prev, i.id = item.id) → addToHistory item prev = prev) ∧
    ((∀ i ∈ prev, i.id ≠ item.id) → addToHistory item prev = item :: prev) := by
  constructor
  · rintro ⟨i, hi, hid⟩
    unfold addToHistory
    rw [if_pos (List.any_eq_true.mpr ⟨i, hi, by simpa using hid⟩)]
  · intro h
    unfold addToHistory
    rw [if_neg]
    intro hany
    rcases List.any_eq_true.mp hany with ⟨i, hi, hid⟩
    exact h i hi (by simpa using hid)

/-- Witness for C9 at concrete items: a duplicate insert is a no-op and a
fresh insert prepends. -/
theorem addToHistory_dedup_or_prepend_witness :
    addToHistory itemA [itemA] = [itemA] ∧ addToHistory itemB [itemA] = [itemB, itemA] := by
  refine ⟨(addToHistory_dedup_or_prepend [itemA] itemA).1 ⟨itemA, by simp, rfl⟩,
    (addToHistory_dedup_or_prepend [itemA] itemB).2 ?_⟩
  intro i hi
  have : i = itemA := by simpa using hi
  subst this
  simp [itemA, itemB]

/-- C7: changing the playback rate while not in the playing state leaves
savedOffset unchanged and only stores the new rate. -/
theorem handleRateChange_paused (a : App) (r now : ℚ)
    (h : a.appState ≠ AppState.PLAYING) :
    (handleRateChange r now a).savedOffset = a.savedOffset ∧
    (handleRateChange r now a).playbackRate = r := by
  unfold handleRateChange
  rw [if_neg (fun hc => h hc.1)]
  exact ⟨rfl, rfl⟩

/-- Witness for C7: a rate change on the freshly loaded (paused) state. -/
theorem handleRateChange_paused_witness :
    (handleRateChange 2 5 (loadedApp 10 0)).savedOffset = (loadedApp 10 0).savedOffset ∧
    (handleRateChange 2 5 (loadedApp 10 0)).playbackRate = 2 :=
  handleRateChange_paused (loadedApp 10 0) 2 5 (by simp [loadedApp])

/-- C5: pausing during active playback first commits the position under the
current rate, stops the output, detaches the completion callback, and the
natural-end handler is then a no-op, so the committed offset survives
instead of being reset to 0. -/
theorem pauseAudio_commits_detaches (a : App) (now : ℚ)
    (hnode : a.sourceNode = true) (hctx : a.hasContext = true) :
    (pauseAudio now a).savedOffset =
      a.savedOffset + (now - a.segmentStart) * a.playbackRate ∧
    (pauseAudio now a).outputActive = false ∧
    (pauseAudio now a).onended = false ∧
    (pauseAudio now a).appState = AppState.READY ∧
    handleEnded (pauseAudio now a) = pauseAudio now a := by
  unfold pauseAudio commitProgress
  rw [if_pos ⟨hnode, hctx⟩, if_pos hctx]
  simp [handleEnded]

/-- Witness for C5 on a concrete playing state. -/
theorem pauseAudio_commits_detaches_witness :
    (pauseAudio 3 (playAudio 0 (loadedApp 10 0))).savedOffset =
      (playAudio 0 (loadedApp 10 0)).savedOffset +
        (3 - (playAudio 0 (loadedApp 10 0)).segmentStart) *
          (playAudio 0 (loadedApp 10 0)).playbackRate ∧
    (pauseAudio 3 (playAudio 0 (loadedApp 10 0))).outputActive = false ∧
    (pauseAudio 3 (playAudio 0 (loadedApp 10 0))).onended = false ∧
    (pauseAudio 3 (playAudio 0 (loadedApp 10 0))).appState = AppState.READY ∧
    handleEnded (pauseAudio 3 (playAudio 0 (loadedApp 10 0))) =
      pauseAudio 3 (playAudio 0 (loadedApp 10 0)) :=
  pauseAudio_commits_detaches (playAudio 0 (loadedApp 10 0)) 3
    (by norm_num [playAudio, loadedApp]) (by norm_num [playAudio, loadedApp])

/-- C6: starting playback with a saved offset that is out of range for the
buffer recovers by resetting savedOffset to 0 and starting the live source
at offset 0, still entering the playing state. -/
theorem playAudio_stale_offset (a : App) (now : ℚ) (buf : AudioBuffer)
    (hbuf : a.audioBuffer = some buf) (hctx : a.hasContext = true)
    (hfail : buf.duration < max 0 a.savedOffset) :
    (playAudio now a).savedOffset = 0 ∧
    (playAudio now a).liveStartOffset = 0 ∧
    (playAudio now a).appState = AppState.PLAYING := by
  unfold playAudio
  rw [hbuf]
  simp [hctx, hfail]

/-- Witness for C6: a 10 second buffer with a stale saved offset of 20. -/
theorem playAudio_stale_offset_witness :
    (playAudio 0 { loadedApp 10 0 with savedOffset := 20 }).savedOffset = 0 ∧
    (playAudio 0 { loadedApp 10 0 with savedOffset := 20 }).liveStartOffset = 0 ∧
    (playAudio 0 { loadedApp 10 0 with savedOffset := 20 }).appState = AppState.PLAYING :=
  playAudio_stale_offset { loadedApp 10 0 with savedOffset := 20 } 0
    { duration := 10 } (by simp [loadedApp]) (by simp [loadedApp]) (by norm_num [loadedApp])

/-- Looking up the updated label after cacheUpdate returns the updated
entry. -/
theorem cacheLookup_cacheUpdate_self (label : String) (f : CachedBriefing → CachedBriefing)
    (cache : List (String × CachedBriefing)) :
    cacheLookup label (cacheUpdate label f cache) = (cacheLookup label cache).map f := by
  induction cache with
  | nil => rfl
  | cons p rest ih =>
    by_cases h : p.1 = label
    · simp [cacheUpdate, cacheLookup, h]
    · simp [cacheUpdate, cacheLookup, h, ih]

/-- Looking up any other label after cacheUpdate is unchanged. -/
theorem cacheLookup_cacheUpdate_other (label other : String) (hne : other ≠ label)
    (f : CachedBriefing → CachedBriefing) (cache : List (String × CachedBriefing)) :
    cacheLookup other (cacheUpdate label f cache) = cacheLookup other cache := by
  induction cache with
  | nil => rfl
  | cons p rest ih =>
    by_cases h : p.1 = label
    · have hpo : ¬ p.1 = other := fun hh => hne (hh ▸ h)
      simp [cacheUpdate, cacheLookup, h, hpo, Ne.symm hne, ih]
    · by_cases h2 : p.1 = other
      · simp [cacheUpdate, cacheLookup, h, h2, hne]
      · simp [cacheUpdate, cacheLookup, h, h2, hne, ih]

/-- C8: attaching the resolved image to a cache entry that became ready
with a null image updates only that entry's imageUrl: the status stays
ready, every other field of the entry is unchanged, and every other cache
key is untouched. -/
theorem attachImage_targeted (cache : List (String × CachedBriefing)) (label : String)
    (img : Option String) (cd : CachedBriefing)
    (hlook : cacheLookup label cache = some cd)
    (hst : cd.status = CacheStatus.ready) (him : cd.imageUrl = none) :
    (∃ cd2, cacheLookup label (attachImage label img cache) = some cd2 ∧
      cd2.imageUrl = img ∧ cd2.status = CacheStatus.ready ∧
      cd2.summary = cd.summary ∧ cd2.sources = cd.sources ∧
      cd2.audioBuffer = cd.audioBuffer ∧ cd2.timestamp = cd.timestamp) ∧
    ∀ other, other ≠ label →
      cacheLookup other (attachImage label img cache) = cacheLookup other cache := by
  constructor
  · refine ⟨{ cd with imageUrl := img }, ?_, rfl, hst, rfl, rfl, rfl, rfl⟩
    rw [attachImage, cacheLookup_cacheUpdate_self, hlook]
    rfl
  · intro other hne
    exact cacheLookup_cacheUpdate_other label other hne _ cache

/-- Witness for C8 on the sample cache. -/
theorem attachImage_targeted_witness :
    (∃ cd2, cacheLookup "Tech" (attachImage "Tech" (some "img") [("Tech", demoEntry)]) = some cd2 ∧
      cd2.imageUrl = some "img" ∧ cd2.status = CacheStatus.ready ∧
      cd2.summary = demoEntry.summary ∧ cd2.sources = demoEntry.sources ∧
      cd2.audioBuffer = demoEntry.audioBuffer ∧ cd2.timestamp = demoEntry.timestamp) ∧
    ∀ other, other ≠ "Tech" →
      cacheLookup other (attachImage "Tech" (some "img") [("Tech", demoEntry)]) =
        cacheLookup other [("Tech", demoEntry)] :=
  attachImage_targeted [("Tech", demoEntry)] "Tech" (some "img") demoEntry
    (by simp [cacheLookup]) rfl rfl

/-- C3: selecting a category whose cache entry is ready with audio present
adopts the entry's script, sources, image and audio as the active briefing,
resets the playback offset, appends the corresponding history record,
enters READY, and issues no remote script, speech or image call, whatever
the imageUrl field currently holds. -/
theorem handleCategorySelect_hit (env : RemoteEnv) (now : ℤ) (label : String)
    (a : App) (cd : CachedBriefing) (buf : AudioBuffer)
    (hlook : cacheLookup label a.cache = some cd)
    (hst : cd.status = CacheStatus.ready)
    (hbuf : cd.audioBuffer = some buf) :
    (handleCategorySelect env now label a).summary = cd.summary ∧
    (handleCategorySelect env now label a).sources = cd.sources ∧
    (handleCategorySelect env now label a).imageUrl = cd.imageUrl ∧
    (handleCategorySelect env now label a).audioBuffer = some buf ∧
    (handleCategorySelect env now label a).savedOffset = 0 ∧
    (handleCategorySelect env now label a).history =
      addToHistory (cacheHitRecord label now cd buf) a.history ∧
    (handleCategorySelect env now label a).appState = AppState.READY ∧
    (handleCategorySelect env now label a).scriptCalls = a.scriptCalls ∧
    (handleCategorySelect env now label a).speechCalls = a.speechCalls ∧
    (handleCategorySelect env now label a).imageCalls = a.imageCalls := by
  simp only [handleCategorySelect, hlook, hst, hbuf]
  simp

/-- Witness for C3: the sample ready entry under the Tech label is adopted
with zero remote calls. -/
theorem handleCategorySelect_hit_witness :
    (handleCategorySelect demoEnvOk 7 "Tech" demoAppCached).summary = demoEntry.summary ∧
    (handleCategorySelect demoEnvOk 7 "Tech" demoAppCached).sources = demoEntry.sources ∧
    (handleCategorySelect demoEnvOk 7 "Tech" demoAppCached).imageUrl = demoEntry.imageUrl ∧
    (handleCategorySelect demoEnvOk 7 "Tech" demoAppCached).audioBuffer =
      some { duration := 10 } ∧
    (handleCategorySelect demoEnvOk 7 "Tech" demoAppCached).savedOffset = 0 ∧
    (handleCategorySelect demoEnvOk 7 "Tech" demoAppCached).history =
      addToHistory (cacheHitRecord "Tech" 7 demoEntry { duration := 10 })
        demoAppCached.history ∧
    (handleCategorySelect demoEnvOk 7 "Tech" demoAppCached).appState = AppState.READY ∧
    (handleCategorySelect demoEnvOk 7 "Tech" demoAppCached).scriptCalls =
      demoAppCached.scriptCalls ∧
    (handleCategorySelect demoEnvOk 7 "Tech" demoAppCached).speechCalls =
      demoAppCached.speechCalls ∧
    (handleCategorySelect demoEnvOk 7 "Tech" demoAppCached).imageCalls =
      demoAppCached.imageCalls :=
  handleCategorySelect_hit demoEnvOk 7 "Tech" demoAppCached demoEntry { duration := 10 }
    (by simp [demoAppCached, cacheLookup]) rfl rfl

/-- C4: when the script call succeeds and the speech call fails, the whole
pipeline aborts: the state becomes ERROR carrying the failure message, no
history entry is created, and no audio buffer is set. -/
theorem performGeneration_speech_failure (env : RemoteEnv) (now : ℤ)
    (targetArticles : List Article) (a : App) (result : BriefingResult) (e : String)
    (hvalid : (targetArticles.filter (fun x => 0 < (jsTrim x.content).length)).length ≠ 0)
    (hscript : env.script (targetArticles.filter (fun x => 0 < (jsTrim x.content).length))
      a.selectedLanguage = Except.ok result)
    (hspeech : env.speech result.script (getVoiceForGender a.selectedGender) =
      Except.error e) :
    (performGeneration env now targetArticles a).appState = AppState.ERROR ∧
    (performGeneration env now targetArticles a).errorMessage =
      some (jsOr e defaultErrorMessage) ∧
    (performGeneration env now targetArticles a).history = a.history ∧
    (performGeneration env now targetArticles a).audioBuffer = a.audioBuffer := by
  simp only [performGeneration, generateBriefingScript, hvalid, hscript, hspeech,
    if_neg, ite_false, ite_true]
  simp [hvalid, hscript, hspeech]

/-- Witness for C4: in the environment whose speech call throws, a valid
topic list ends in the ERROR state with the thrown message, no history
entry and no audio buffer. -/
theorem performGeneration_speech_failure_witness :
    (performGeneration demoEnvSpeechFail 7 demoArticles (loadedApp 10 0)).appState =
      AppState.ERROR ∧
    (performGeneration demoEnvSpeechFail 7 demoArticles (loadedApp 10 0)).errorMessage =
      some (jsOr "boom" defaultErrorMessage) ∧
    (performGeneration demoEnvSpeechFail 7 demoArticles (loadedApp 10 0)).history =
      (loadedApp 10 0).history ∧
    (performGeneration demoEnvSpeechFail 7 demoArticles (loadedApp 10 0)).audioBuffer =
      (loadedApp 10 0).audioBuffer :=
  performGeneration_speech_failure demoEnvSpeechFail 7 demoArticles (loadedApp 10 0)
    { script := "demo script", sources := [] } "boom"
    (by decide) rfl rfl

/-- C1: commitProgress advances savedOffset by exactly the wall-clock
elapsed time of the segment scaled by the playback rate and resets the
segment clock to now; concretely, on a 10 second buffer, playing 3 seconds
of real time at rate 1 then pausing commits savedOffset 3, and resuming at
rate 2 for 2 seconds of real time then pausing commits savedOffset 7. -/
theorem commitProgress_advances (a : App) (rate now : ℚ) (hctx : a.hasContext = true) :
    (commitProgress rate now a).savedOffset =
      a.savedOffset + (now - a.segmentStart) * rate ∧
    (commitProgress rate now a).segmentStart = now ∧
    (run (loadedApp 10 0) [Event.play 0, Event.pause 3]).savedOffset = 3 ∧
    (run (loadedApp 10 0) scenarioTrace).savedOffset = 7 := by
  refine ⟨?_, ?_, ?_, ?_⟩
  · unfold commitProgress
    rw [if_pos hctx]
  · unfold commitProgress
    rw [if_pos hctx]
  · norm_num [run, step, scenarioTrace, playAudio, pauseAudio, handleRateChange,
      commitProgress, loadedApp]
  · norm_num [run, step, scenarioTrace, playAudio, pauseAudio, handleRateChange,
      commitProgress, loadedApp]

/-- Witness for C1 at a concrete state and commit. -/
theorem commitProgress_advances_witness :
    (commitProgress 2 5 (loadedApp 10 0)).savedOffset =
      (loadedApp 10 0).savedOffset + (5 - (loadedApp 10 0).segmentStart) * 2 ∧
    (commitProgress 2 5 (loadedApp 10 0)).segmentStart = 5 ∧
    (run (loadedApp 10 0) [Event.play 0, Event.pause 3]).savedOffset = 3 ∧
    (run (loadedApp 10 0) scenarioTrace).savedOffset = 7 :=
  commitProgress_advances (loadedApp 10 0) 2 5 rfl

/-- One admissible event preserves the tracker invariant. -/
theorem inv_step {D t : ℚ} {a : App} {e : Event} (hI : Inv D t a)
    (hv : validEvent D t a e) : Inv D e.time (step a e) := by
  obtain ⟨off0, offD, rlb, rub, hctx, hbuf, hseg, hnode, hhandler⟩ := hI
  have h0D : (0:ℚ) ≤ D := le_trans off0 offD
  cases e with
  | play now =>
    obtain ⟨hready, hle⟩ := hv
    have hnofail : ¬ (({ duration := D } : AudioBuffer).duration < max 0 a.savedOffset) := by
      simp only [not_lt]
      exact max_le h0D offD
    have hstep : step a (Event.play now) =
        { a with
          liveStartOffset := max 0 a.savedOffset
          segmentStart := now
          sourceNode := true
          outputActive := true
          onended := true
          appState := AppState.PLAYING } := by
      show playAudio now a = _
      simp [playAudio, hbuf, hctx, hnofail]
    rw [hstep]
    exact
      { off_nonneg := off0
        off_le := offD
        rate_lb := rlb
        rate_ub := rub
        ctx := hctx
        buf := hbuf
        seg := fun _ => rfl
        node := fun _ => rfl
        handler := fun _ => rfl }
  | pause now =>
    obtain ⟨hplay, hle, hbound⟩ := hv
    have hstep : step a (Event.pause now) =
        { a with
          savedOffset := a.savedOffset + (now - a.segmentStart) * a.playbackRate
          segmentStart := now
          onended := false
          outputActive := false
          appState := AppState.READY } := by
      show pauseAudio now a = _
      simp [pauseAudio, commitProgress, hnode hplay, hctx]
    rw [hstep]
    have h1 : a.segmentStart ≤ now := by
      rw [hseg hplay]
      exact hle
    have hge : 0 ≤ (now - a.segmentStart) * a.playbackRate :=
      mul_nonneg (by linarith) (by linarith)
    exact
      { off_nonneg := add_nonneg off0 hge
        off_le := hbound
        rate_lb := rlb
        rate_ub := rub
        ctx := hctx
        buf := hbuf
        seg := fun h => nomatch h
        node := fun h => nomatch h
        handler := fun h => nomatch h }
  | changeRate r now =>
    obtain ⟨hrlb, hrub, hle, hbound⟩ := hv
    by_cases hplay : a.appState = AppState.PLAYING
    · have hstep : step a (Event.changeRate r now) =
          { a with
            savedOffset := a.savedOffset + (now - a.segmentStart) * a.playbackRate
            segmentStart := now
            playbackRate := r } := by
        show handleRateChange r now a = _
        simp [handleRateChange, commitProgress, hplay, hnode hplay, hctx]
      rw [hstep]
      have h1 : a.segmentStart ≤ now := by
        rw [hseg hplay]
        exact hle
      have hge : 0 ≤ (now - a.segmentStart) * a.playbackRate :=
        mul_nonneg (by linarith) (by linarith)
      exact
        { off_nonneg := add_nonneg off0 hge
          off_le := hbound hplay
          rate_lb := hrlb
          rate_ub := hrub
          ctx := hctx
          buf := hbuf
          seg := fun _ => rfl
          node := fun _ => hnode hplay
          handler := fun _ => hhandler hplay }
    · have hstep : step a (Event.changeRate r now) = { a with playbackRate := r } := by
        show handleRateChange r now a = _
        simp [handleRateChange, hplay]
      rw [hstep]
      exact
        { off_nonneg := off0
          off_le := offD
          rate_lb := hrlb
          rate_ub := hrub
          ctx := hctx
          buf := hbuf
          seg := fun h => absurd h hplay
          node := fun h => absurd h hplay
          handler := fun h => absurd h hplay }
  | ended now =>
    obtain ⟨hplay, hle, hpos⟩ := hv
    have hstep : step a (Event.ended now) =
        { a with
          appState := AppState.READY
          savedOffset := 0
          outputActive := false } := by
      show handleEnded a = _
      simp [handleEnded, hhandler hplay]
    rw [hstep]
    exact
      { off_nonneg := le_refl 0
        off_le := h0D
        rate_lb := rlb
        rate_ub := rub
        ctx := hctx
        buf := hbuf
        seg := fun h => nomatch h
        node := fun h => nomatch h
        handler := fun h => nomatch h }

/-- The invariant propagates along any admissible trace. -/
theorem inv_run {D : ℚ} (es : List Event) : ∀ (t : ℚ) (a : App),
    Inv D t a → validTrace D t a es → ∃ t2, Inv D t2 (run a es) := by
  induction es with
  | nil =>
    intro t a hI _
    exact ⟨t, hI⟩
  | cons e rest ih =>
    intro t a hI hv
    have hv2 : validEvent D t a e ∧ validTrace D (Event.time e) (step a e) rest := hv
    exact ih (Event.time e) (step a e) (inv_step hI hv2.1) hv2.2

/-- C2: along any admissible sequence of play, pause, rate-change and
natural-end events on a freshly loaded buffer of duration D, the committed
savedOffset never exceeds D and never goes negative. -/
theorem savedOffset_in_range (D t0 : ℚ) (hD : 0 ≤ D) (es : List Event)
    (hv : validTrace D t0 (loadedApp D t0) es) :
    0 ≤ (run (loadedApp D t0) es).savedOffset ∧
      (run (loadedApp D t0) es).savedOffset ≤ D := by
  have hI : Inv D t0 (loadedApp D t0) :=
    { off_nonneg := le_refl 0
      off_le := hD
      rate_lb := by norm_num [loadedApp]
      rate_ub := by norm_num [loadedApp]
      ctx := rfl
      buf := rfl
      seg := fun h => nomatch h
      node := fun h => nomatch h
      handler := fun h => nomatch h }
  obtain ⟨t2, hI2⟩ := inv_run es t0 (loadedApp D t0) hI hv
  exact ⟨hI2.off_nonneg, hI2.off_le⟩

/-- Witness for C2: the scenario trace is admissible for the 10 second
buffer and keeps the offset within range. -/
theorem savedOffset_in_range_witness :
    0 ≤ (run (loadedApp 10 0) scenarioTrace).savedOffset ∧
      (run (loadedApp 10 0) scenarioTrace).savedOffset ≤ 10 :=
  savedOffset_in_range 10 0 (by norm_num) scenarioTrace
    (by norm_num [validTrace, validEvent, step, playAudio, pauseAudio,
      handleRateChange, commitProgress, loadedApp, Event.time, scenarioTrace])

end NewsBrief
